import Mathlib

/-!
Verification of the tatty_agent core against its specification.

The package's core (`tatty_agent.core.runtime`, `tatty_agent.core.state`,
`tatty_agent.tools.registry`) is exercised by the test suite and declared by
`tatty_agent/core/__init__.py`, and its behaviour is specified in spec.md
sections 3 to 7.  Those modules are embedded below; the configuration layer
is embedded directly from `tatty_agent/config/settings.py`.
-/

namespace TattyAgent

/-- A record of the conversation history: a role tag ("user", "assistant",
"tool") and the message content.  Spec section 3: `conversationHistory` is an
ordered sequence of (role, content) records. -/
structure Message where
  role : String
  content : String
deriving DecidableEq, Repr

/-- Modelled from the spec: an Action is duck-typed with a kind tag (the
tests read `tool.action`), an opaque argument record (modelled as one opaque
string `arg`), and the Delegate-specific fields `description` and `prompt`
(the tests set `tool.description` and `tool.prompt` on the reserved kind). -/
structure ToolAction where
  action : String
  arg : String := ""
  description : String := ""
  prompt : String := ""
deriving DecidableEq, Repr

/-- The reserved action kind intercepted for sub-agent delegation; the spec
calls it "Delegate", the tests use the kind string "Agent". -/
def agent_kind : String := "Agent"

/-- Failure taxonomy of registry dispatch, spec section 7: `UnknownAction`
(registry miss) and `ToolError` (handler-reported failure). -/
inductive DispatchFailure where
  | unknownAction (kind : String)
  | toolError (detail : String)
deriving DecidableEq, Repr

/-- Modelled from the spec: the failure text that is folded into the
conversation history when dispatch fails (section 7: "their text is folded
into conversation history as a tool-result"). -/
def DispatchFailure.text : DispatchFailure → String
  | .unknownAction kind => "Unknown action: " ++ kind
  | .toolError detail => "Tool error: " ++ detail

/-- Modelled from the spec: a tool handler, section 6:
`handle(action, workingDirectory) -> string | fails with ToolError(detail)`. -/
abbrev ToolHandler := ToolAction → String → Except String String

/-- Lookup of the most recently registered handler for a kind. -/
def find_handler (kind : String) : List (String × ToolHandler) → Option ToolHandler
  | [] => none
  | (k, h) :: rest => if k = kind then some h else find_handler kind rest

/-- Modelled from the spec: the Action Registry of `tatty_agent.tools.registry`
(absent from the sources; declared by `tatty_agent/tools/__init__.py`), a
lookup/dispatch table from kind identifiers to handlers, spec section 4.1.
Registration prepends, and lookup takes the most recent entry, so
re-registering a kind overwrites the previous mapping (last write wins). -/
structure ToolRegistry where
  handlers : List (String × ToolHandler) := []

/-- `register(kind, handler)` associates a kind with a handler; last write
wins (spec section 4.1). -/
def ToolRegistry.register_tool (r : ToolRegistry) (kind : String) (h : ToolHandler) :
    ToolRegistry :=
  { handlers := (kind, h) :: r.handlers }

/-- `dispatch(action, workingDirectory)` looks up the handler by the action's
kind and invokes it, propagating handler failure as `ToolError`; fails with
`UnknownAction` when no handler is registered (spec section 4.1). -/
def ToolRegistry.dispatch (r : ToolRegistry) (a : ToolAction) (working_dir : String) :
    Except DispatchFailure String :=
  match find_handler a.action r.handlers with
  | none => .error (.unknownAction a.action)
  | some h =>
    match h a working_dir with
    | .ok s => .ok s
    | .error detail => .error (.toolError detail)

/-- Modelled from the spec: `AgentState` of `tatty_agent.core.state` (absent
from the sources; declared by `tatty_agent/core/__init__.py`) — the Execution
Context of spec section 3.  Field names and defaults follow the test suite
(`test_state_initialization`, `test_state_defaults`). -/
structure AgentState where
  working_dir : String := "."
  messages : List Message := []
  todos : List String := []
  interrupt_requested : Bool := false
  current_iteration : Nat := 0
  current_depth : Nat := 0
deriving DecidableEq, Repr

/-- Modelled from the spec: `AgentCallbacks` of `tatty_agent.core.state` — the
Observer set of spec sections 3 and 4.4: a mapping from event name to an
optional handler, all absent by default (`test_callbacks_initialization`).
Handlers are pure notification sinks; the core never consumes their output. -/
structure AgentCallbacks where
  on_iteration : Option (Nat → Nat → Unit) := none
  on_tool_start : Option (String → String → Nat → Nat → Nat → Unit) := none
  on_tool_result : Option (String → Nat → Unit) := none
  on_agent_reply : Option (String → Unit) := none
  on_status_update : Option (String → Nat → Unit) := none
  on_sub_agent_start : Option (String → Nat → Unit) := none
  on_sub_agent_complete : Option (String → Nat → Unit) := none

/-- The seven-event observer vocabulary of spec sections 3 and 4.2. -/
inductive AgentEvent where
  | iterationStarted (iteration : Nat) (depth : Nat)
  | toolStarted (name : String) (arg : String) (toolIndex : Nat) (totalTools : Nat)
      (depth : Nat)
  | toolFinished (result : String) (depth : Nat)
  | agentReply (message : String)
  | statusUpdate (status : String) (iteration : Nat)
  | subAgentStarted (description : String) (depth : Nat)
  | subAgentFinished (result : String) (depth : Nat)
deriving DecidableEq, Repr

/-- Whether the observer set carries a handler for the given event: only such
events produce a notification (spec section 4.4, all hooks optional). -/
def AgentCallbacks.handles (cbs : AgentCallbacks) : AgentEvent → Bool
  | .iterationStarted _ _ => cbs.on_iteration.isSome
  | .toolStarted _ _ _ _ _ => cbs.on_tool_start.isSome
  | .toolFinished _ _ => cbs.on_tool_result.isSome
  | .agentReply _ => cbs.on_agent_reply.isSome
  | .statusUpdate _ _ => cbs.on_status_update.isSome
  | .subAgentStarted _ _ => cbs.on_sub_agent_start.isSome
  | .subAgentFinished _ _ => cbs.on_sub_agent_complete.isSome

/-- Modelled from the spec: the external model client, section 6:
`propose(conversationHistory) -> (actions, finalReply)`, failing with
`ModelUnavailable` (carried as the error string) on transport error. -/
abbrev ModelClient := List Message → Except String (List ToolAction × Option String)

/-- The run-ending failure of spec section 7: `ModelUnavailable` is surfaced
to the caller as a single structured failure. -/
inductive RunError where
  | modelUnavailable (detail : String)
deriving DecidableEq, Repr

/-- Result of executing one action: its textual result (registry failures are
already rendered as text, spec section 7), the state after execution, and the
events the execution itself emitted (nested sub-agent events). -/
structure StepR where
  text : String
  state : AgentState
  trace : List AgentEvent
deriving Repr

/-- A tool executor: how one proposed action at a given depth is turned into
a textual result.  The Runtime is parametric in it (the tests mock
`execute_tool` the same way); the concrete executor is `execute_tool_full`. -/
abbrev ToolExec := ToolAction → AgentState → Nat → StepR

/-- Modelled from the spec: the distinguished interruption result, section 7:
`Interrupted` is a normal termination "returning a descriptive result string"
(the test checks that the lower-cased result contains "interrupted"). -/
def interrupted_message : String := "Agent execution was interrupted"

/-- Modelled from the spec: the budget-exhausted result, section 7 (the test
checks that the lower-cased result contains "maximum iterations"). -/
def max_iterations_message : String :=
  "Reached maximum iterations without a final reply"

/-- Appending one tool result to the conversation history as a tool-result
message (spec section 4.2, Folding). -/
def fold_tool_result (st : AgentState) (r : String) : AgentState :=
  { st with messages := st.messages ++ [⟨"tool", r⟩] }

/-- Folding a batch of tool results into the history, in order. -/
def fold_results (st : AgentState) (texts : List String) : AgentState :=
  texts.foldl fold_tool_result st

/-- Modelled from the spec: the Executing phase, section 4.2 — each proposed
action is dispatched in the order given, sequentially; each dispatch records
`(toolIndex, totalTools, depth)` and is bracketed by `tool-started` /
`tool-finished` events.  `idx` is the index of the first remaining action and
`total` the size of the whole batch. -/
def execute_phase (exec : ToolExec) :
    List ToolAction → AgentState → Nat → Nat → Nat →
      List String × AgentState × List AgentEvent
  | [], st, _, _, _ => ([], st, [])
  | t :: rest, st, depth, idx, total =>
    let r := exec t st depth
    let tail := execute_phase exec rest r.state depth (idx + 1) total
    (r.text :: tail.1, tail.2.1,
      .toolStarted t.action t.arg idx total depth ::
        (r.trace ++ .toolFinished r.text depth :: tail.2.2))

/-- Result of one propose/execute/fold cycle: whether the loop is complete,
the final result when it is, the updated state and the emitted events (the
tests call this pair `(is_complete, result)`). -/
structure IterR where
  is_complete : Bool
  result : Option String
  state : AgentState
  trace : List AgentEvent
deriving Repr

/-- Modelled from the spec: `run_iteration` of `tatty_agent.core.runtime`
(absent from the sources) — one cycle of the state machine of spec
section 4.2.  Interruption is checked before issuing any new Proposing call
(termination priority 1); then the model client is asked for the next batch;
a final reply completes the run (priority 2) with an `agent-reply` event;
otherwise the proposed actions are executed in order and their results folded
into the history, and the loop continues. -/
def run_iteration (exec : ToolExec) (model : ModelClient) (st : AgentState)
    (depth : Nat) (iteration : Nat) : Except RunError IterR :=
  if st.interrupt_requested then
    .ok ⟨true, some interrupted_message, st, []⟩
  else
    match model st.messages with
    | .error e => .error (.modelUnavailable e)
    | .ok (actions, finalReply) =>
      match finalReply with
      | some reply =>
        .ok ⟨true, some reply,
          { st with messages := st.messages ++ [⟨"assistant", reply⟩] },
          [.iterationStarted iteration depth, .agentReply reply]⟩
      | none =>
        let phase := execute_phase exec actions st depth 0 actions.length
        .ok ⟨false, none, fold_results phase.2.1 phase.1,
          .iterationStarted iteration depth :: phase.2.2⟩

/-- Modelled from the spec: the iteration loop at one depth, section 4.2
(Deciding): starting at iteration `i` with `remaining` iterations left in the
caller-supplied budget, run cycles until one completes or the budget is
exhausted, in which case the budget-exhausted message is returned
(termination priority 3).  `current_iteration` increments once per loop pass. -/
def run_loop_go (exec : ToolExec) (model : ModelClient) (depth : Nat) :
    Nat → Nat → AgentState → Except RunError (String × AgentState × List AgentEvent)
  | 0, _, st => .ok (max_iterations_message, st, [])
  | remaining + 1, i, st =>
    match run_iteration exec model { st with current_iteration := i } depth i with
    | .error e => .error e
    | .ok r =>
      if r.is_complete then
        .ok (r.result.getD "", r.state, r.trace)
      else
        match run_loop_go exec model depth remaining (i + 1) r.state with
        | .error e => .error e
        | .ok (res, st', tr) => .ok (res, st', r.trace ++ tr)

/-- Modelled from the spec: the child Execution Context a "Delegate" action
is run against, section 4.3: same `workingDirectory` and `interruptRequested`
flag as the parent, `currentDepth = parent.currentDepth + 1`,
`currentIteration` reset to 0, and a fresh conversation history seeded from
the delegate's task prompt. -/
def child_context (parent : AgentState) (prompt : String) : AgentState :=
  { working_dir := parent.working_dir
    messages := [⟨"user", prompt⟩]
    todos := []
    interrupt_requested := parent.interrupt_requested
    current_iteration := 0
    current_depth := parent.current_depth + 1 }

/-- Modelled from the spec: the result text when the model-recursion bound of
this embedding is reached; the source imposes no depth ceiling (spec
section 9 flags this as an open question), so the bound is an artifact of
modelling the unbounded recursion with fuel. -/
def fuel_exhausted_message : String := "Sub-agent recursion bound reached"

/-- Modelled from the spec: the textual result of a sub-agent run whose
Proposing call failed; the parent receives the failure description. -/
def sub_agent_failure_text : RunError → String
  | .modelUnavailable detail => "Sub-agent failed: model unavailable: " ++ detail

/-- Modelled from the spec: `execute_sub_agent` of `tatty_agent.core.runtime`
(absent from the sources) — the Sub-agent Recursion Manager, section 4.3.
A new loop runs to completion against the child context at depth + 1 with
the same iteration budget; its single textual result is returned as the
Delegate action's result, bracketed by `sub-agent-started` /
`sub-agent-finished` events.  The parent's state is untouched: only the
summarized result crosses the boundary (spec section 5). -/
def execute_sub_agent (exec : ToolExec) (model : ModelClient)
    (max_iterations : Nat) (tool : ToolAction) (st : AgentState) (depth : Nat) :
    StepR :=
  match run_loop_go exec model (depth + 1) max_iterations 0
      (child_context st tool.prompt) with
  | .error e =>
    ⟨sub_agent_failure_text e, st,
      [.subAgentStarted tool.description (depth + 1),
       .subAgentFinished (sub_agent_failure_text e) (depth + 1)]⟩
  | .ok (res, _, tr) =>
    ⟨res, st,
      .subAgentStarted tool.description (depth + 1) ::
        (tr ++ [.subAgentFinished res (depth + 1)])⟩

/-- Modelled from the spec: `execute_tool` of `tatty_agent.core.runtime`
(absent from the sources) — the reserved "Agent" kind is intercepted before
registry dispatch and runs a nested sub-agent (section 4.3); every other
kind goes through `ToolRegistry.dispatch` with the context's working
directory, and dispatch failures are rendered as text (section 7).  `fuel`
bounds the delegation recursion of this embedding; the source has no such
bound (section 9). -/
def execute_tool_full (reg : ToolRegistry) (model : ModelClient)
    (max_iterations : Nat) : Nat → ToolExec
  | 0, tool, st, _depth =>
    if tool.action = agent_kind then ⟨fuel_exhausted_message, st, []⟩
    else
      match reg.dispatch tool st.working_dir with
      | .ok text => ⟨text, st, []⟩
      | .error f => ⟨f.text, st, []⟩
  | fuel + 1, tool, st, depth =>
    if tool.action = agent_kind then
      execute_sub_agent (execute_tool_full reg model max_iterations fuel) model
        max_iterations tool st depth
    else
      match reg.dispatch tool st.working_dir with
      | .ok text => ⟨text, st, []⟩
      | .error f => ⟨f.text, st, []⟩

/-- Modelled from the spec: `AgentRuntime` of `tatty_agent.core.runtime`
(absent from the sources) — the iteration engine, holding the Execution
Context and the Observer set (`test_runtime_initialization`). -/
structure AgentRuntime where
  state : AgentState
  callbacks : AgentCallbacks

/-- Modelled from the spec: the class-level current-state singleton of
`AgentRuntime` (the test asserts that constructing a runtime sets the
class attribute to the supplied state; spec section 9 records it as a
"global mutable current-state singleton").  The Python name is
`AgentRuntime._current_state`. -/
structure RuntimeGlobal where
  current_state : Option AgentState := none
deriving DecidableEq, Repr

/-- Modelled from the spec: `AgentRuntime(state, callbacks)` — construction
stores the state and callbacks on the instance and sets the class-level
singleton to the supplied state. -/
def AgentRuntime.init (st : AgentState) (cbs : AgentCallbacks)
    (g : RuntimeGlobal) : AgentRuntime × RuntimeGlobal :=
  (⟨st, cbs⟩, { g with current_state := some st })

/-- Outcome of a full `run_loop` call: the final result text, the final
state, the raw ordered event stream, and the notifications actually
delivered (events for which the observer set carries a handler). -/
structure RunResult where
  result : String
  state : AgentState
  events : List AgentEvent
  notified : List AgentEvent
deriving Repr

/-- Modelled from the spec: `run_loop(initial_message, max_iterations)` of
`tatty_agent.core.runtime` (absent from the sources) — the invocation entry
point of spec section 6: the initial message is appended to the history as a
user message and the cycle loop runs at depth 0.  Observer handlers receive
the events they are present for; they never influence the loop (section 4.4). -/
def AgentRuntime.run_loop (rt : AgentRuntime) (reg : ToolRegistry)
    (model : ModelClient) (fuel : Nat) (initial_message : String)
    (max_iterations : Nat) : Except RunError RunResult :=
  match run_loop_go (execute_tool_full reg model max_iterations fuel) model 0
      max_iterations 0
      { rt.state with
        messages := rt.state.messages ++ [⟨"user", initial_message⟩] } with
  | .error e => .error e
  | .ok (res, st, tr) => .ok ⟨res, st, tr, tr.filter rt.callbacks.handles⟩

/-- `TattyConfig` of `tatty_agent/config/settings.py`: the dataclass with its
field defaults.  Python's `_config_sources` is `config_sources` here; integer
fields are `Int` (Python ints are signed and unbounded in the tested range). -/
structure TattyConfig where
  openai_api_key : Option String := none
  boundary_api_key : Option String := none
  working_dir : String := "."
  default_model : String := "gpt-4"
  fast_model : String := "gpt-3.5-turbo"
  max_iterations : Int := 20
  timeout : Int := 120
  verbose : Bool := false
  debug : Bool := false
  colorize : Bool := true
  enable_web_tools : Bool := true
  enable_git_tools : Bool := true
  enable_package_install : Bool := true
  require_confirmation : Bool := true
  sandbox_mode : Bool := false
  custom_tools_dir : Option String := none
  baml_config_path : Option String := none
  log_level : String := "INFO"
  config_sources : List String := []
deriving DecidableEq, Repr

/-- The valid log levels of `TattyConfig.__post_init__`. -/
def valid_log_levels : List String :=
  ["DEBUG", "INFO", "WARNING", "ERROR", "CRITICAL"]

/-- `TattyConfig.__post_init__` of `tatty_agent/config/settings.py`:
resolves `working_dir` (the filesystem's `Path(...).resolve()` is the
supplied `resolve` function), replaces `log_level` by "INFO" when its
upper-casing is not a valid level, and replaces an empty `default_model` or
`fast_model` by its default.  No other field is touched. -/
def TattyConfig.post_init (resolve : String → String) (c : TattyConfig) :
    TattyConfig :=
  let c1 := { c with working_dir := resolve c.working_dir }
  let c2 :=
    if valid_log_levels.contains c1.log_level.toUpper then c1
    else { c1 with log_level := "INFO" }
  let c3 :=
    if c2.default_model = "" then { c2 with default_model := "gpt-4" } else c2
  if c3.fast_model = "" then { c3 with fast_model := "gpt-3.5-turbo" } else c3

/-- The Observer set with every handler absent (the default construction,
`test_callbacks_initialization`). -/
def no_callbacks : AgentCallbacks := {}

/-- Projection of an event stream to the `tool-started` / `tool-finished`
events of one Executing depth. -/
def is_tool_event_at (d : Nat) : AgentEvent → Bool
  | .toolStarted _ _ _ _ d' => d' == d
  | .toolFinished _ d' => d' == d
  | _ => false

/-- The `tool-started` / `tool-finished` events of depth `d`, in stream order. -/
def tool_events_at (d : Nat) (tr : List AgentEvent) : List AgentEvent :=
  tr.filter (is_tool_event_at d)

/-- The depths of the `iteration-started` events of a stream, in order. -/
def iter_depths (tr : List AgentEvent) : List Nat :=
  tr.filterMap fun e =>
    match e with
    | .iterationStarted _ d' => some d'
    | _ => none

/-- How many `iteration-started` events of depth `d` a stream holds: one per
proposing cycle at that depth. -/
def iteration_count_at (d : Nat) (tr : List AgentEvent) : Nat :=
  (iter_depths tr).count d

/-- A model client that always completes immediately with the reply "done"
(used to instantiate universally quantified statements). -/
def const_done_model : ModelClient := fun _ => .ok ([], some "done")

/-- A model client that always proposes an empty batch and never a final
reply (used to instantiate universally quantified statements). -/
def never_final_model : ModelClient := fun _ => .ok ([], none)

/-- A tool executor that returns an empty result, leaves the state alone and
emits no events (used to instantiate universally quantified statements). -/
def null_exec : ToolExec := fun _ st _ => ⟨"", st, []⟩

/-- The registry with no handler registered. -/
def empty_registry : ToolRegistry := {}

/-- A concrete action of an ordinary (non-reserved) kind. -/
def echo_action : ToolAction := ⟨"Echo", "hi", "", ""⟩

/-- A model client that always proposes the single `echo_action` and never a
final reply. -/
def propose_echo_model : ModelClient := fun _ => .ok ([echo_action], none)

/-- A concrete action of the reserved kind, carrying a task description and
prompt (the shape the tests build with `tool.action = "Agent"`). -/
def delegate_action : ToolAction :=
  ⟨"Agent", "", "Test sub-agent", "Test prompt"⟩

/-- C8: after `register(k, h1)` followed by `register(k, h2)`, dispatching an
action of kind `k` invokes `h2` — re-registration overwrites the previous
mapping (last write wins) rather than failing or keeping the first handler. -/
theorem register_last_write_wins (r : ToolRegistry) (k : String)
    (h1 h2 : ToolHandler) (arg wd : String) :
    ((r.register_tool k h1).register_tool k h2).dispatch ⟨k, arg, "", ""⟩ wd =
      (match h2 ⟨k, arg, "", ""⟩ wd with
        | .ok s => Except.ok s
        | .error detail => Except.error (.toolError detail)) := by
  simp [ToolRegistry.register_tool, ToolRegistry.dispatch, find_handler]

/-- C9: constructing `AgentRuntime(state, callbacks)` stores the state on the
instance and sets the class-level `_current_state` to the supplied state,
and constructing a second runtime overwrites the value observed through the
class — the runtime does not confine its context to the instance. -/
theorem runtime_init_sets_class_state (st1 st2 : AgentState)
    (cbs1 cbs2 : AgentCallbacks) (g : RuntimeGlobal) :
    (AgentRuntime.init st1 cbs1 g).1.state = st1 ∧
    (AgentRuntime.init st1 cbs1 g).2.current_state = some st1 ∧
    (AgentRuntime.init st2 cbs2
        (AgentRuntime.init st1 cbs1 g).2).2.current_state = some st2 :=
  ⟨rfl, rfl, rfl⟩

/-- C2: with `interrupt_requested` already true before the first cycle and a
positive iteration budget, `run_loop` returns the interruption message as a
normal (`ok`) termination with an empty event stream, the context unchanged
except for the appended initial user message and the reset iteration
counter, and the outcome does not depend on the model client at all. -/
theorem run_loop_interrupted_before_first_cycle (reg : ToolRegistry)
    (model model' : ModelClient) (fuel : Nat) (msg : String) (n : Nat)
    (st : AgentState) (cbs : AgentCallbacks) :
    (AgentRuntime.mk { st with interrupt_requested := true } cbs).run_loop reg
        model fuel msg (n + 1) =
      Except.ok ⟨interrupted_message,
        { st with
            interrupt_requested := true
            messages := st.messages ++ [⟨"user", msg⟩]
            current_iteration := 0 },
        [], []⟩ ∧
    (AgentRuntime.mk { st with interrupt_requested := true } cbs).run_loop reg
        model fuel msg (n + 1) =
      (AgentRuntime.mk { st with interrupt_requested := true } cbs).run_loop reg
        model' fuel msg (n + 1) :=
  ⟨rfl, rfl⟩

/-- The empty observer set handles no event. -/
theorem no_callbacks_handles (e : AgentEvent) : no_callbacks.handles e = false := by
  cases e <;> rfl

/-- The empty observer set receives no notification from any stream. -/
theorem filter_no_callbacks (tr : List AgentEvent) :
    tr.filter no_callbacks.handles = [] := by
  induction tr with
  | nil => rfl
  | cons e rest ih => simp [List.filter, no_callbacks_handles, ih]

/-- The result/state/events part of `run_loop` is computed by the core loop
alone; the observer set enters only the `notified` component. -/
theorem run_loop_core_eq (rt : AgentRuntime) (reg : ToolRegistry)
    (model : ModelClient) (fuel : Nat) (msg : String) (n : Nat) :
    (rt.run_loop reg model fuel msg n).map (fun r => (r.result, r.state, r.events)) =
      (run_loop_go (execute_tool_full reg model n fuel) model 0 n 0
        { rt.state with messages := rt.state.messages ++ [⟨"user", msg⟩] }).map
        (fun x => (x.1, x.2.1, x.2.2)) := by
  unfold AgentRuntime.run_loop
  rcases run_loop_go (execute_tool_full reg model n fuel) model 0 n 0
      { rt.state with messages := rt.state.messages ++ [⟨"user", msg⟩] } with
    e | ⟨res, st', tr⟩ <;> rfl

/-- C6: the loop's final result text, final state and raw event stream are
the same under any observer set as under the empty one; an empty observer
set additionally receives no notifications — handlers influence only the
side-channel notifications, never control flow or outcome. -/
theorem observer_handlers_do_not_affect_outcome (reg : ToolRegistry)
    (model : ModelClient) (fuel : Nat) (msg : String) (n : Nat)
    (st : AgentState) (cbs : AgentCallbacks) :
    ((AgentRuntime.mk st cbs).run_loop reg model fuel msg n).map
        (fun r => (r.result, r.state, r.events)) =
      ((AgentRuntime.mk st no_callbacks).run_loop reg model fuel msg n).map
        (fun r => (r.result, r.state, r.events)) ∧
    ((AgentRuntime.mk st no_callbacks).run_loop reg model fuel msg n).map
        (fun r => r.notified) =
      ((AgentRuntime.mk st no_callbacks).run_loop reg model fuel msg n).map
        (fun _ => ([] : List AgentEvent)) := by
  constructor
  · exact (run_loop_core_eq (AgentRuntime.mk st cbs) reg model fuel msg n).trans
      (run_loop_core_eq (AgentRuntime.mk st no_callbacks) reg model fuel msg n).symm
  · unfold AgentRuntime.run_loop
    rcases run_loop_go (execute_tool_full reg model n fuel) model 0 n 0
        { st with messages := st.messages ++ [⟨"user", msg⟩] } with
      e | ⟨res, st', tr⟩
    · rfl
    · simp [Except.map, filter_no_callbacks]

/-- C7: folding a tool result `r` into the history appends it verbatim as a
tool-result message, and the next Proposing call passes exactly that
history to the model client: two clients agreeing on that one history give
identical cycles, so `r` reaches the client character for character. -/
theorem fold_then_propose_verbatim (exec : ToolExec) (m1 m2 : ModelClient)
    (st : AgentState) (r : String) (depth iteration : Nat)
    (h : m1 (fold_tool_result st r).messages = m2 (fold_tool_result st r).messages) :
    (fold_tool_result st r).messages = st.messages ++ [⟨"tool", r⟩] ∧
    run_iteration exec m1 (fold_tool_result st r) depth iteration =
      run_iteration exec m2 (fold_tool_result st r) depth iteration := by
  refine ⟨rfl, ?_⟩
  unfold run_iteration
  rw [h]

/-- C7 witness at concrete inputs. -/
theorem fold_then_propose_verbatim_witness :
    (fold_tool_result { working_dir := "/tmp" } "tool output").messages =
      ({ working_dir := "/tmp" } : AgentState).messages ++
        [⟨"tool", "tool output"⟩] ∧
    run_iteration null_exec const_done_model
        (fold_tool_result { working_dir := "/tmp" } "tool output") 0 0 =
      run_iteration null_exec const_done_model
        (fold_tool_result { working_dir := "/tmp" } "tool output") 0 0 :=
  fold_then_propose_verbatim null_exec const_done_model const_done_model
    { working_dir := "/tmp" } "tool output" 0 0 rfl

/-- A non-"Agent" action is never intercepted: it goes through registry
dispatch at any recursion fuel, leaving the state untouched and emitting no
nested events. -/
theorem execute_tool_full_non_agent (reg : ToolRegistry) (model : ModelClient)
    (n fuel : Nat) (tool : ToolAction) (st : AgentState) (depth : Nat)
    (h : ¬ tool.action = agent_kind) :
    execute_tool_full reg model n fuel tool st depth =
      (match reg.dispatch tool st.working_dir with
        | .ok text => ⟨text, st, []⟩
        | .error f => ⟨f.text, st, []⟩) := by
  cases fuel <;> simp [execute_tool_full, h]

/-- C5: dispatching an action whose kind has no registered handler fails
with `UnknownAction`; the failure is recovered locally — the cycle does not
complete, the failure text is appended to the history as a tool-result
message, and the loop goes on to the next Proposing phase instead of
terminating the run. -/
theorem unknown_action_recovered_locally (reg : ToolRegistry)
    (model : ModelClient) (n fuel : Nat) (st : AgentState) (a : ToolAction)
    (depth iteration rem : Nat)
    (hk : ¬ a.action = agent_kind)
    (hl : find_handler a.action reg.handlers = none)
    (hi : st.interrupt_requested = false)
    (hm : model st.messages = .ok ([a], none)) :
    reg.dispatch a st.working_dir = .error (.unknownAction a.action) ∧
    run_iteration (execute_tool_full reg model n fuel) model st depth iteration =
      .ok ⟨false, none,
        { st with messages := st.messages ++
            [⟨"tool", DispatchFailure.text (.unknownAction a.action)⟩] },
        [.iterationStarted iteration depth,
         .toolStarted a.action a.arg 0 1 depth,
         .toolFinished (DispatchFailure.text (.unknownAction a.action)) depth]⟩ ∧
    run_loop_go (execute_tool_full reg model n fuel) model depth (rem + 1)
        iteration st =
      (match run_loop_go (execute_tool_full reg model n fuel) model depth rem
          (iteration + 1)
          { st with
              current_iteration := iteration
              messages := st.messages ++
                [⟨"tool", DispatchFailure.text (.unknownAction a.action)⟩] } with
        | .error e => .error e
        | .ok (res, st', tr) =>
          .ok (res, st',
            AgentEvent.iterationStarted iteration depth ::
              AgentEvent.toolStarted a.action a.arg 0 1 depth ::
              AgentEvent.toolFinished
                (DispatchFailure.text (.unknownAction a.action)) depth :: tr)) := by
  have hdisp : ∀ wd, reg.dispatch a wd = .error (.unknownAction a.action) := by
    intro wd
    simp [ToolRegistry.dispatch, hl]
  have hiter : ∀ s : AgentState, s.messages = st.messages →
      s.interrupt_requested = false →
      run_iteration (execute_tool_full reg model n fuel) model s depth iteration =
        .ok ⟨false, none,
          { s with messages := s.messages ++
              [⟨"tool", DispatchFailure.text (.unknownAction a.action)⟩] },
          [.iterationStarted iteration depth,
           .toolStarted a.action a.arg 0 1 depth,
           .toolFinished (DispatchFailure.text (.unknownAction a.action)) depth]⟩ := by
    intro s hsm hsi
    rw [run_iteration]
    rw [hsm, hsi, hm]
    simp only [Bool.false_eq_true, if_false]
    simp [execute_phase, execute_tool_full_non_agent reg model n fuel a _ depth hk,
      hdisp, fold_results, fold_tool_result]
    exact ⟨hsm, hsi⟩
  refine ⟨hdisp st.working_dir, hiter st rfl hi, ?_⟩
  rw [run_loop_go]
  rw [hiter { st with current_iteration := iteration } rfl hi]
  rcases hrec : run_loop_go (execute_tool_full reg model n fuel) model depth rem
      (iteration + 1)
      { st with
          current_iteration := iteration
          messages := st.messages ++
            [⟨"tool", DispatchFailure.text (.unknownAction a.action)⟩] } with
    e | ⟨res, st', tr⟩ <;> simp [hrec]

/-- C5 witness at concrete inputs: the empty registry, the unregistered
"Echo" action and a model that proposes it. -/
theorem unknown_action_recovered_locally_witness :
    empty_registry.dispatch echo_action (({} : AgentState)).working_dir =
      .error (.unknownAction echo_action.action) ∧
    run_iteration (execute_tool_full empty_registry propose_echo_model 1 0)
        propose_echo_model {} 0 0 =
      .ok ⟨false, none,
        { ({} : AgentState) with messages := ({} : AgentState).messages ++
            [⟨"tool", DispatchFailure.text (.unknownAction echo_action.action)⟩] },
        [.iterationStarted 0 0,
         .toolStarted echo_action.action echo_action.arg 0 1 0,
         .toolFinished (DispatchFailure.text (.unknownAction echo_action.action)) 0]⟩ ∧
    run_loop_go (execute_tool_full empty_registry propose_echo_model 1 0)
        propose_echo_model 0 (0 + 1) 0 {} =
      (match run_loop_go (execute_tool_full empty_registry propose_echo_model 1 0)
          propose_echo_model 0 0 (0 + 1)
          { ({} : AgentState) with
              current_iteration := 0
              messages := ({} : AgentState).messages ++
                [⟨"tool",
                  DispatchFailure.text (.unknownAction echo_action.action)⟩] } with
        | .error e => .error e
        | .ok (res, st', tr) =>
          .ok (res, st',
            AgentEvent.iterationStarted 0 0 ::
              AgentEvent.toolStarted echo_action.action echo_action.arg 0 1 0 ::
              AgentEvent.toolFinished
                (DispatchFailure.text (.unknownAction echo_action.action)) 0 :: tr)) :=
  unknown_action_recovered_locally empty_registry propose_echo_model 1 0 {}
    echo_action 0 0 0 (by decide) rfl rfl rfl

/-- The ordering property of an Executing phase, generic in the executor:
when dispatches emit no tool events of the phase's own depth, the phase's
stream restricted to that depth is exactly one started/finished pair per
action, in batch order. -/
theorem execute_phase_event_order_generic (exec : ToolExec)
    (tools : List ToolAction) (st : AgentState) (d : Nat) (i n : Nat)
    (hexec : ∀ t s, tool_events_at d (exec t s d).trace = []) :
    tool_events_at d (execute_phase exec tools st d i n).2.2 =
      List.flatten (List.zipWith
        (fun (k : Nat) (p : ToolAction × String) =>
          [AgentEvent.toolStarted p.1.action p.1.arg k n d,
           AgentEvent.toolFinished p.2 d])
        (List.range' i tools.length)
        (tools.zip (execute_phase exec tools st d i n).1)) := by
  induction tools generalizing st i with
  | nil => rfl
  | cons t rest ih =>
    have hx : tool_events_at d (exec t st d).trace = [] := hexec t st
    simp only [tool_events_at] at hx ih ⊢
    simp [execute_phase, List.filter_cons, List.filter_append, is_tool_event_at,
      hx, List.range'_succ, ih]

/-- An Executing phase at a depth other than `dd` contributes no tool events
of depth `dd` when its dispatches do not either. -/
theorem execute_phase_tool_events_ne (exec : ToolExec) (D dd : Nat)
    (hne : ¬ D = dd)
    (h : ∀ t s, tool_events_at dd (exec t s D).trace = []) :
    ∀ tools st i n,
      tool_events_at dd (execute_phase exec tools st D i n).2.2 = [] := by
  intro tools
  induction tools with
  | nil => intro st i n; rfl
  | cons t rest ih =>
    intro st i n
    have hx : tool_events_at dd (exec t st D).trace = [] := h t st
    simp only [tool_events_at] at hx ih ⊢
    simp [execute_phase, List.filter_cons, List.filter_append,
      is_tool_event_at, hne, hx, ih]

/-- One cycle at depth `D` contributes no tool events of a depth `dd ≠ D`
when its dispatches do not. -/
theorem run_iteration_tool_events_ne (exec : ToolExec) (model : ModelClient)
    (D dd : Nat) (hne : ¬ D = dd)
    (h : ∀ t s, tool_events_at dd (exec t s D).trace = [])
    (st : AgentState) (i : Nat) (r : IterR)
    (hr : run_iteration exec model st D i = .ok r) :
    tool_events_at dd r.trace = [] := by
  unfold run_iteration at hr
  split at hr
  · cases hr; rfl
  · rcases hmod : model st.messages with e | ⟨acts, rep⟩
    · rw [hmod] at hr; cases hr
    · rw [hmod] at hr
      rcases rep with _ | reply
      · cases hr
        have hp := execute_phase_tool_events_ne exec D dd hne h acts st 0
          acts.length
        simp only [tool_events_at, List.filter_cons] at hp ⊢
        simp [is_tool_event_at, hp]
      · cases hr; rfl

/-- The whole loop at depth `D` contributes no tool events of a depth
`dd ≠ D` when its dispatches do not. -/
theorem run_loop_go_tool_events_ne (exec : ToolExec) (model : ModelClient)
    (D dd : Nat) (hne : ¬ D = dd)
    (h : ∀ t s, tool_events_at dd (exec t s D).trace = []) :
    ∀ rem i st res st' tr,
      run_loop_go exec model D rem i st = .ok (res, st', tr) →
      tool_events_at dd tr = [] := by
  intro rem
  induction rem with
  | zero =>
    intro i st res st' tr hgo
    cases hgo
    rfl
  | succ m ih =>
    intro i st res st' tr hgo
    unfold run_loop_go at hgo
    split at hgo
    · cases hgo
    · rename_i r hr
      split at hgo
      · cases hgo
        exact run_iteration_tool_events_ne exec model D dd hne h _ _ r hr
      · split at hgo
        · cases hgo
        · rename_i out hrec
          cases hgo
          have h1 := run_iteration_tool_events_ne exec model D dd hne h _ _ r hr
          have h2 := ih _ _ _ _ _ hrec
          simp only [tool_events_at] at h1 h2 ⊢
          rw [List.filter_append, h1, h2]
          rfl

/-- A dispatch at depth `d` emits tool events only of strictly deeper
Executing phases: never of a depth `dd ≤ d`. -/
theorem execute_tool_full_tool_events (reg : ToolRegistry)
    (model : ModelClient) (N : Nat) :
    ∀ fuel t st d dd, dd ≤ d →
      tool_events_at dd (execute_tool_full reg model N fuel t st d).trace = [] := by
  intro fuel
  induction fuel with
  | zero =>
    intro t st d dd hdd
    unfold execute_tool_full
    split
    · rfl
    · split <;> rfl
  | succ m ih =>
    intro t st d dd hdd
    unfold execute_tool_full
    split
    · unfold execute_sub_agent
      split
      · rfl
      · rename_i out hrec
        have hne : ¬ (d + 1) = dd := by omega
        have hloop := run_loop_go_tool_events_ne
          (execute_tool_full reg model N m) model (d + 1) dd hne
          (fun t' s' => ih t' s' (d + 1) dd (by omega))
          N 0 _ _ _ _ hrec
        simp only [tool_events_at, List.filter_cons, List.filter_append] at *
        simp [is_tool_event_at, hloop]
    · split <;> rfl

/-- C4: within one Executing phase of the Runtime, the `tool-started` /
`tool-finished` events of that depth fire strictly in batch order — for the
`k`-th action a started event carrying `(k, totalTools, depth)` immediately
followed by the finished event carrying the `k`-th result — with nothing of
the same depth interleaved: everything a dispatch emits belongs to deeper
phases, and the batch is processed sequentially, never concurrently. -/
theorem executing_phase_event_order (reg : ToolRegistry)
    (model : ModelClient) (N fuel : Nat) (tools : List ToolAction)
    (st : AgentState) (d : Nat) (i n : Nat) :
    tool_events_at d
        (execute_phase (execute_tool_full reg model N fuel) tools st d i n).2.2 =
      List.flatten (List.zipWith
        (fun (k : Nat) (p : ToolAction × String) =>
          [AgentEvent.toolStarted p.1.action p.1.arg k n d,
           AgentEvent.toolFinished p.2 d])
        (List.range' i tools.length)
        (tools.zip
          (execute_phase (execute_tool_full reg model N fuel) tools st d i
            n).1)) :=
  execute_phase_event_order_generic (execute_tool_full reg model N fuel) tools
    st d i n
    (fun t s => execute_tool_full_tool_events reg model N fuel t s d d le_rfl)

theorem iter_depths_nil : iter_depths [] = [] := rfl

theorem iter_depths_append (a b : List AgentEvent) :
    iter_depths (a ++ b) = iter_depths a ++ iter_depths b :=
  List.filterMap_append a b _

theorem iter_depths_iteration (i d : Nat) (l : List AgentEvent) :
    iter_depths (.iterationStarted i d :: l) = d :: iter_depths l := rfl

theorem iter_depths_tool_started (nm ar : String) (a b c : Nat)
    (l : List AgentEvent) :
    iter_depths (.toolStarted nm ar a b c :: l) = iter_depths l := rfl

theorem iter_depths_tool_finished (r : String) (d : Nat) (l : List AgentEvent) :
    iter_depths (.toolFinished r d :: l) = iter_depths l := rfl

theorem iter_depths_agent_reply (m : String) (l : List AgentEvent) :
    iter_depths (.agentReply m :: l) = iter_depths l := rfl

theorem iter_depths_sub_started (ds : String) (d : Nat) (l : List AgentEvent) :
    iter_depths (.subAgentStarted ds d :: l) = iter_depths l := rfl

theorem iter_depths_sub_finished (r : String) (d : Nat) (l : List AgentEvent) :
    iter_depths (.subAgentFinished r d :: l) = iter_depths l := rfl

/-- In an Executing phase at depth `D`, every `iteration-started` event comes
from inside a dispatch; if the executor only emits such events at depths at
least `k`, so does the whole phase. -/
theorem execute_phase_iter_depths (exec : ToolExec) (D k : Nat)
    (h : ∀ t s, ∀ x ∈ iter_depths (exec t s D).trace, k ≤ x) :
    ∀ tools st i n, ∀ x ∈ iter_depths (execute_phase exec tools st D i n).2.2,
      k ≤ x := by
  intro tools
  induction tools with
  | nil =>
    intro st i n x hx
    simp [execute_phase, iter_depths_nil] at hx
  | cons t rest ih =>
    intro st i n x hx
    simp only [execute_phase, iter_depths_tool_started, iter_depths_append,
      iter_depths_tool_finished, List.mem_append] at hx
    rcases hx with hx | hx
    · exact h t st x hx
    · exact ih (exec t st D).state (i + 1) n x hx

/-- One cycle at depth `D` emits `iteration-started` only at depth `D` or,
through dispatches, at the executor's depths. -/
theorem run_iteration_iter_depths (exec : ToolExec) (model : ModelClient)
    (D k : Nat) (hk : k ≤ D)
    (h : ∀ t s, ∀ x ∈ iter_depths (exec t s D).trace, k ≤ x)
    (st : AgentState) (i : Nat) (r : IterR)
    (hr : run_iteration exec model st D i = .ok r) :
    ∀ x ∈ iter_depths r.trace, k ≤ x := by
  unfold run_iteration at hr
  split at hr
  · cases hr
    intro x hx
    simp [iter_depths_nil] at hx
  · split at hr
    · cases hr
    · split at hr
      · cases hr
        intro x hx
        simp only [iter_depths_iteration, iter_depths_agent_reply,
          iter_depths_nil, List.mem_singleton] at hx
        exact hx ▸ hk
      · cases hr
        intro x hx
        simp only [iter_depths_iteration, List.mem_cons] at hx
        rcases hx with rfl | hx
        · exact hk
        · exact execute_phase_iter_depths exec D k h _ _ _ _ x hx

/-- The whole loop at depth `D` emits `iteration-started` only at depth `D`
or at the executor's depths. -/
theorem run_loop_go_iter_depths (exec : ToolExec) (model : ModelClient)
    (D k : Nat) (hk : k ≤ D)
    (h : ∀ t s, ∀ x ∈ iter_depths (exec t s D).trace, k ≤ x) :
    ∀ rem i st res st' tr,
      run_loop_go exec model D rem i st = .ok (res, st', tr) →
      ∀ x ∈ iter_depths tr, k ≤ x := by
  intro rem
  induction rem with
  | zero =>
    intro i st res st' tr hgo x hx
    cases hgo
    simp [iter_depths_nil] at hx
  | succ m ih =>
    intro i st res st' tr hgo x hx
    unfold run_loop_go at hgo
    split at hgo
    · cases hgo
    · rename_i r hr
      split at hgo
      · cases hgo
        exact run_iteration_iter_depths exec model D k hk h _ _ r hr x hx
      · split at hgo
        · cases hgo
        · rename_i out hrec
          cases hgo
          rw [iter_depths_append, List.mem_append] at hx
          rcases hx with hx | hx
          · exact run_iteration_iter_depths exec model D k hk h _ _ r hr x hx
          · exact ih _ _ _ _ _ hrec x hx

/-- Every `iteration-started` event emitted by a dispatch at depth `d` —
necessarily from a nested sub-agent — lies strictly below `d`. -/
theorem execute_tool_full_iter_depths (reg : ToolRegistry)
    (model : ModelClient) (N : Nat) :
    ∀ fuel t st d,
      ∀ x ∈ iter_depths (execute_tool_full reg model N fuel t st d).trace,
        d < x := by
  intro fuel
  induction fuel with
  | zero =>
    intro t st d x hx
    unfold execute_tool_full at hx
    split at hx
    · simp [iter_depths_nil] at hx
    · split at hx <;> simp [iter_depths_nil] at hx
  | succ m ih =>
    intro t st d x hx
    unfold execute_tool_full at hx
    split at hx
    · unfold execute_sub_agent at hx
      split at hx
      · simp [iter_depths_sub_started, iter_depths_sub_finished,
          iter_depths_nil] at hx
      · rename_i out hrec
        simp only [iter_depths_sub_started, iter_depths_append,
          iter_depths_sub_finished, iter_depths_nil, List.append_nil] at hx
        have := run_loop_go_iter_depths
          (execute_tool_full reg model N m) model (d + 1) (d + 1) le_rfl
          (fun t' s' x' hx' => le_of_lt (ih t' s' (d + 1) x' hx'))
          N 0 _ _ _ _ hrec x hx
        omega
    · split at hx <;> simp [iter_depths_nil] at hx

/-- A dispatch never mutates the parent context: registry handlers receive
only the working directory, and a sub-agent's state changes stay in the
child (spec section 5). -/
theorem execute_tool_full_state (reg : ToolRegistry) (model : ModelClient)
    (N : Nat) :
    ∀ fuel t st d, (execute_tool_full reg model N fuel t st d).state = st := by
  intro fuel t st d
  cases fuel with
  | zero =>
    unfold execute_tool_full
    split
    · rfl
    · split <;> rfl
  | succ m =>
    unfold execute_tool_full
    split
    · unfold execute_sub_agent
      split <;> rfl
    · split <;> rfl

/-- An Executing phase threads the state through the executor; with a
state-preserving executor it leaves the state unchanged. -/
theorem execute_phase_state (exec : ToolExec)
    (hs : ∀ t s dd, (exec t s dd).state = s) :
    ∀ tools st d i n, (execute_phase exec tools st d i n).2.1 = st := by
  intro tools
  induction tools with
  | nil => intro st d i n; rfl
  | cons t rest ih =>
    intro st d i n
    simp only [execute_phase]
    rw [ih, hs]

/-- Folding tool results touches only the conversation history. -/
theorem fold_results_interrupt (texts : List String) :
    ∀ st : AgentState,
      (fold_results st texts).interrupt_requested = st.interrupt_requested := by
  induction texts with
  | nil => intro st; rfl
  | cons r rest ih => intro st; exact ih (fold_tool_result st r)

/-- With a model that always answers and never supplies a final reply, and a
state-preserving, deeper-only executor, the loop at depth 0 runs its whole
budget and ends with the budget-exhausted message, one `iteration-started`
event of depth 0 per remaining budgeted cycle. -/
theorem run_loop_go_never_final (exec : ToolExec) (model : ModelClient)
    (hs : ∀ t s dd, (exec t s dd).state = s)
    (hd0 : ∀ t s, ∀ x ∈ iter_depths (exec t s 0).trace, 0 < x)
    (hm : ∀ h, ∃ acts, model h = .ok (acts, none)) :
    ∀ rem i st, st.interrupt_requested = false →
      ∃ st' tr, run_loop_go exec model 0 rem i st =
          .ok (max_iterations_message, st', tr) ∧
        iteration_count_at 0 tr = rem := by
  intro rem
  induction rem with
  | zero =>
    intro i st hst
    exact ⟨st, [], rfl, rfl⟩
  | succ m ih =>
    intro i st hst
    obtain ⟨acts, hmod⟩ := hm ({ st with current_iteration := i } : AgentState).messages
    have hiter : run_iteration exec model { st with current_iteration := i } 0 i =
        .ok ⟨false, none,
          fold_results
            (execute_phase exec acts { st with current_iteration := i } 0 0
              acts.length).2.1
            (execute_phase exec acts { st with current_iteration := i } 0 0
              acts.length).1,
          .iterationStarted i 0 ::
            (execute_phase exec acts { st with current_iteration := i } 0 0
              acts.length).2.2⟩ := by
      unfold run_iteration
      rw [show ({ st with current_iteration := i } : AgentState).interrupt_requested
            = false from hst, hmod]
      simp only [Bool.false_eq_true, if_false]
    have hint2 : (fold_results
        (execute_phase exec acts { st with current_iteration := i } 0 0
          acts.length).2.1
        (execute_phase exec acts { st with current_iteration := i } 0 0
          acts.length).1).interrupt_requested = false := by
      rw [fold_results_interrupt, execute_phase_state exec hs]
      exact hst
    obtain ⟨st', tr, hgo, hcount⟩ := ih (i + 1) _ hint2
    refine ⟨st', .iterationStarted i 0 ::
      ((execute_phase exec acts { st with current_iteration := i } 0 0
        acts.length).2.2 ++ tr), ?_, ?_⟩
    · unfold run_loop_go
      rw [hiter]
      simp only [if_false, Bool.false_eq_true]
      rw [hgo]
      rfl
    · have hzero : (iter_depths (execute_phase exec acts
          { st with current_iteration := i } 0 0 acts.length).2.2).count 0 = 0 := by
        rw [List.count_eq_zero]
        intro hmem
        exact absurd rfl (Nat.ne_of_gt
          (execute_phase_iter_depths exec 0 1 hd0 _ _ _ _ 0 hmem))
      unfold iteration_count_at at hcount ⊢
      rw [iter_depths_iteration, iter_depths_append]
      simp [List.count_cons, List.count_append, hzero, hcount]

/-- C1: with a positive budget, an uninterrupted context and a model client
that answers every Proposing call but never supplies a final reply,
`run_loop` terminates normally after exactly its budget of proposing cycles
(depth-0 `iteration-started` events), returning the budget-exhausted
message. -/
theorem run_loop_budget_exhausted (reg : ToolRegistry) (model : ModelClient)
    (fuel : Nat) (msg : String) (n : Nat) (st : AgentState)
    (cbs : AgentCallbacks)
    (hi : st.interrupt_requested = false)
    (hm : ∀ h, ∃ acts, model h = .ok (acts, none)) :
    ∃ r, (AgentRuntime.mk st cbs).run_loop reg model fuel msg (n + 1) =
        .ok r ∧
      r.result = max_iterations_message ∧
      iteration_count_at 0 r.events = n + 1 := by
  obtain ⟨st', tr, hgo, hcount⟩ :=
    run_loop_go_never_final (execute_tool_full reg model (n + 1) fuel) model
      (execute_tool_full_state reg model (n + 1) fuel)
      (fun t s x hx => execute_tool_full_iter_depths reg model (n + 1) fuel t s 0 x hx)
      hm (n + 1) 0 { st with messages := st.messages ++ [⟨"user", msg⟩] } hi
  refine ⟨⟨max_iterations_message, st', tr, tr.filter cbs.handles⟩, ?_, rfl, hcount⟩
  unfold AgentRuntime.run_loop
  rw [hgo]

/-- C1 witness at concrete inputs: budget 1, a model that always proposes an
empty batch and never a final reply. -/
theorem run_loop_budget_exhausted_witness :
    ∃ r, (AgentRuntime.mk {} no_callbacks).run_loop empty_registry
        never_final_model 0 "task" (0 + 1) = .ok r ∧
      r.result = max_iterations_message ∧
      iteration_count_at 0 r.events = 0 + 1 :=
  run_loop_budget_exhausted empty_registry never_final_model 0 "task" 0 {}
    no_callbacks rfl (fun _ => ⟨[], rfl⟩)

/-- C3: a "Delegate"-kind action (kind string "Agent") is intercepted before
registry dispatch: it runs a nested loop against a child context sharing the
parent's working directory and interrupt flag, at depth parent + 1 with the
iteration counter reset to 0 and a fresh history seeded from the delegate's
task prompt; the sub-agent's single textual result becomes the action's
result in the parent — whose own state is untouched — bracketed by the
sub-agent observer events. -/
theorem delegate_spawns_child_context (reg : ToolRegistry)
    (model : ModelClient) (N fuel : Nat) (tool : ToolAction) (st : AgentState)
    (depth : Nat) (res : String) (st2 : AgentState) (tr : List AgentEvent)
    (ha : tool.action = agent_kind)
    (hrun : run_loop_go (execute_tool_full reg model N fuel) model (depth + 1)
        N 0 (child_context st tool.prompt) = .ok (res, st2, tr)) :
    (child_context st tool.prompt).working_dir = st.working_dir ∧
    (child_context st tool.prompt).interrupt_requested =
      st.interrupt_requested ∧
    (child_context st tool.prompt).current_depth = st.current_depth + 1 ∧
    (child_context st tool.prompt).current_iteration = 0 ∧
    (child_context st tool.prompt).messages = [⟨"user", tool.prompt⟩] ∧
    execute_tool_full reg model N (fuel + 1) tool st depth =
      ⟨res, st,
        .subAgentStarted tool.description (depth + 1) ::
          (tr ++ [.subAgentFinished res (depth + 1)])⟩ := by
  refine ⟨rfl, rfl, rfl, rfl, rfl, ?_⟩
  unfold execute_tool_full
  rw [if_pos ha]
  unfold execute_sub_agent
  rw [hrun]

/-- C3 witness at concrete inputs: the reserved action, the empty registry
and a model that completes the child run immediately with "done". -/
theorem delegate_spawns_child_context_witness :
    (child_context {} delegate_action.prompt).working_dir =
      ({} : AgentState).working_dir ∧
    (child_context {} delegate_action.prompt).interrupt_requested =
      ({} : AgentState).interrupt_requested ∧
    (child_context {} delegate_action.prompt).current_depth =
      ({} : AgentState).current_depth + 1 ∧
    (child_context {} delegate_action.prompt).current_iteration = 0 ∧
    (child_context {} delegate_action.prompt).messages =
      [⟨"user", delegate_action.prompt⟩] ∧
    execute_tool_full empty_registry const_done_model 1 (0 + 1)
        delegate_action {} 0 =
      ⟨"done", {},
        .subAgentStarted delegate_action.description (0 + 1) ::
          ([.iterationStarted 0 1, .agentReply "done"] ++
            [.subAgentFinished "done" (0 + 1)])⟩ :=
  delegate_spawns_child_context empty_registry const_done_model 1 0
    delegate_action {} 0 "done"
    { working_dir := "."
      messages := [⟨"user", delegate_action.prompt⟩, ⟨"assistant", "done"⟩]
      todos := []
      interrupt_requested := false
      current_iteration := 0
      current_depth := 1 }
    [.iterationStarted 0 1, .agentReply "done"] rfl rfl

/-- `__post_init__` as one simultaneous record update: the four normalized
fields read disjoint parts of the input, so the sequential updates of the
source compose into this single update. -/
theorem post_init_eq (resolve : String → String) (c : TattyConfig) :
    c.post_init resolve =
      { c with
          working_dir := resolve c.working_dir
          log_level :=
            if valid_log_levels.contains c.log_level.toUpper then c.log_level
            else "INFO"
          default_model :=
            if c.default_model = "" then "gpt-4" else c.default_model
          fast_model :=
            if c.fast_model = "" then "gpt-3.5-turbo" else c.fast_model } := by
  simp only [TattyConfig.post_init]
  split <;> split <;> split <;> simp_all

/-- C10: `TattyConfig.__post_init__` rewrites only `working_dir`,
`log_level`, `default_model` and `fast_model`, exactly as the source does;
every other field — `max_iterations` in particular — is kept as supplied, so
`max_iterations = -5` survives construction (the integration test expects 20
there, as the claim records). -/
theorem post_init_frame_max_iterations (resolve : String → String)
    (c : TattyConfig) :
    (c.post_init resolve).max_iterations = c.max_iterations ∧
    (c.post_init resolve).timeout = c.timeout ∧
    (c.post_init resolve).openai_api_key = c.openai_api_key ∧
    (c.post_init resolve).boundary_api_key = c.boundary_api_key ∧
    (c.post_init resolve).verbose = c.verbose ∧
    (c.post_init resolve).debug = c.debug ∧
    (c.post_init resolve).colorize = c.colorize ∧
    (c.post_init resolve).enable_web_tools = c.enable_web_tools ∧
    (c.post_init resolve).enable_git_tools = c.enable_git_tools ∧
    (c.post_init resolve).enable_package_install = c.enable_package_install ∧
    (c.post_init resolve).require_confirmation = c.require_confirmation ∧
    (c.post_init resolve).sandbox_mode = c.sandbox_mode ∧
    (c.post_init resolve).custom_tools_dir = c.custom_tools_dir ∧
    (c.post_init resolve).baml_config_path = c.baml_config_path ∧
    (c.post_init resolve).config_sources = c.config_sources ∧
    (c.post_init resolve).working_dir = resolve c.working_dir ∧
    (c.post_init resolve).log_level =
      (if valid_log_levels.contains c.log_level.toUpper then c.log_level
        else "INFO") ∧
    (c.post_init resolve).default_model =
      (if c.default_model = "" then "gpt-4" else c.default_model) ∧
    (c.post_init resolve).fast_model =
      (if c.fast_model = "" then "gpt-3.5-turbo" else c.fast_model) ∧
    (TattyConfig.post_init id { max_iterations := -5 }).max_iterations = -5 := by
  simp [post_init_eq]

end TattyAgent
